import Mathlib

/-
Verification of the 301.st Namecheap API gateway (src/src/system/gateway.py).

The gateway is an authenticated HTTP relay: it checks a Basic-auth header,
reads a target URL from the POST body, rewrites the ClientIp query parameter
per proxy attempt, and tries a fixed list of upstream proxies in order,
returning the first success or a uniform 502.

This file gives a shallow embedding of the script: configuration constants,
the ClientIp regex substitution, the auth check (including the Python
base64/utf-8 decoding it relies on, which can raise), the request-body
pipeline, the proxy-fallback loop, and the response assembly of do_POST.
Network effects are modelled by an oracle mapping (proxy, fetched URL) to the
outcome of one fetch attempt; Python exceptions are modelled by Except.
-/

namespace Gateway

/-- Configuration constant PORT = 8080 from the source. -/
def PORT : Nat := 8080

/-- Configuration constant AUTH_USER from the source. -/
def AUTH_USER : String := "gw_user"

/-- Configuration constant AUTH_PASS from the source. -/
def AUTH_PASS : String := "gw_secret_pass"

/-- One entry of the PROXIES list: {'ip', 'port', 'user', 'pass'}. -/
structure Proxy where
  ip : String
  port : Nat
  user : String
  password : String
  deriving Repr, DecidableEq

/-- The configured PROXIES list from the source, in its fixed order. -/
def PROXIES : List Proxy :=
  [⟨"185.218.1.220", 4319, "user308440", "5k4s12"⟩,
   ⟨"185.218.2.100", 4319, "user308441", "abc123"⟩,
   ⟨"172.252.57.50", 4319, "user308442", "xyz789"⟩]

/-! ## The regex substitution re.sub(r'ClientIp=[^&]+', 'ClientIp=' + proxy_ip, url)

Python's re.sub scans left to right, replaces every non-overlapping
leftmost match, and resumes scanning right after each match.  For the
pattern ClientIp=[^&]+ a match at a position is: the literal "ClientIp="
followed by at least one non-'&' character; the greedy [^&]+ then consumes
the maximal run of non-'&' characters. -/

/-- The literal part of the pattern, as a character list. -/
def cIpPat : List Char := "ClientIp=".data

/-- Does the regex ClientIp=[^&]+ match at the start of s?  It does exactly
when "ClientIp=" is a literal prefix and the next character exists and is
not '&'. -/
def isMatch (s : List Char) : Bool :=
  cIpPat.isPrefixOf s &&
    (match s.drop 9 with
     | [] => false
     | c :: _ => c != '&')

/-- Fuelled core of re.sub(r'ClientIp=[^&]+', "ClientIp=" ++ H, s): scan
left to right; at a match, emit "ClientIp=" ++ H, skip the matched text (the
literal plus the maximal non-'&' run), and continue after it; otherwise copy
one character and continue.  The fuel only makes the recursion structural:
with fuel at least the length of the text (as reSub below supplies) the
fuel-exhausted branch is never reached. -/
def reSubF (H : List Char) : Nat → List Char → List Char
  | _, [] => []
  | 0, s => s
  | fuel + 1, c :: cs =>
    if isMatch (c :: cs) then
      cIpPat ++ H ++ reSubF H fuel (((c :: cs).drop 9).dropWhile (fun d => d ≠ '&'))
    else
      c :: reSubF H fuel cs

/-- Python's re.sub(r'ClientIp=[^&]+', "ClientIp=" ++ H, s) on character
lists. -/
def reSub (H s : List Char) : List Char :=
  reSubF H s.length s

/-- The function replace_client_ip of the source:
re.sub(r'ClientIp=[^&]+', f'ClientIp={proxy_ip}', url).  The replacement
template is modelled as literal text, which agrees with Python whenever
proxy_ip contains no backslash (true of every configured proxy ip). -/
def replace_client_ip (url proxy_ip : String) : String :=
  ⟨reSub proxy_ip.data url.data⟩

/-! ## Python library behaviour the script relies on

check_auth calls base64.b64decode (which raises binascii.Error on bad
padding) and bytes.decode (which raises UnicodeDecodeError on invalid
utf-8); do_POST calls int() on the Content-Length header (which raises
ValueError on a non-numeric value).  These are modelled as Except values;
Except.error models a raised Python exception. -/

/-- Is c a base64 alphabet character? -/
def isB64 (c : Char) : Bool :=
  ('A' ≤ c && c ≤ 'Z') || ('a' ≤ c && c ≤ 'z') || ('0' ≤ c && c ≤ '9') ||
    c == '+' || c == '/'

/-- The 6-bit value of a base64 alphabet character. -/
def b64Val (c : Char) : Nat :=
  if 'A' ≤ c && c ≤ 'Z' then c.toNat - 'A'.toNat
  else if 'a' ≤ c && c ≤ 'z' then c.toNat - 'a'.toNat + 26
  else if '0' ≤ c && c ≤ '9' then c.toNat - '0'.toNat + 52
  else if c == '+' then 62
  else 63

/-- The bytes encoded by a complete quad of 6-bit values. -/
def b64Quad (v1 v2 v3 v4 : Nat) : List Nat :=
  [v1 * 4 + v2 / 16, (v2 % 16) * 16 + v3 / 4, (v3 % 4) * 64 + v4]

/-- The bytes of a final partial quad closed by padding (two or three data
characters). -/
def b64PadBytes : List Nat → List Nat
  | [v1, v2] => [v1 * 4 + v2 / 16]
  | [v1, v2, v3] => [v1 * 4 + v2 / 16, (v2 % 16) * 16 + v3 / 4]
  | _ => []

/-- Scan loop of CPython's binascii.a2b_base64 in non-strict mode (what
base64.b64decode(s) uses): characters outside the alphabet are discarded; a
data character resets the pad count and extends the current quad, emitting
three bytes per complete quad; '=' with fewer than two data characters in
the current quad is ignored, while '=' completing the padding of a quad of
two or three data characters emits the partial bytes and stops; leftover
data characters at the end raise binascii.Error. -/
def b64Loop : List Char → List Nat → Nat → Except String (List Nat)
  | [], quad, _ =>
    match quad with
    | [] => Except.ok []
    | [_] => Except.error "Invalid base64-encoded string"
    | _ => Except.error "Incorrect padding"
  | c :: cs, quad, pads =>
    if c = '=' then
      if 2 ≤ quad.length && 4 ≤ quad.length + (pads + 1) then
        Except.ok (b64PadBytes quad)
      else if 2 ≤ quad.length then
        b64Loop cs quad (pads + 1)
      else
        b64Loop cs quad pads
    else if isB64 c then
      match quad with
      | [v1, v2, v3] =>
        match b64Loop cs [] 0 with
        | Except.ok rest => Except.ok (b64Quad v1 v2 v3 (b64Val c) ++ rest)
        | Except.error e => Except.error e
      | _ => b64Loop cs (quad ++ [b64Val c]) 0
    else
      b64Loop cs quad pads

/-- Python base64.b64decode(s) (validate=False), returning the decoded
bytes, or an error modelling the binascii.Error it raises. -/
def b64decodePy (s : String) : Except String (List Nat) :=
  b64Loop s.data [] 0

/-- Strict utf-8 decoding of a byte sequence, fuelled so the recursion is
structural (each step consumes one to four bytes; utf8Decode below supplies
enough fuel that the fuel-exhausted branch is never reached): rejects
truncated sequences, stray continuation bytes, overlong encodings,
surrogates and code points above U+10FFFF, as bytes.decode() does. -/
def utf8DecodeF : Nat → List Nat → Except String (List Char)
  | _, [] => Except.ok []
  | 0, _ => Except.error "UnicodeDecodeError"
  | fuel + 1, b1 :: rest =>
    if b1 < 0x80 then
      match utf8DecodeF fuel rest with
      | Except.ok cs => Except.ok (Char.ofNat b1 :: cs)
      | Except.error e => Except.error e
    else if 0xC2 ≤ b1 && b1 ≤ 0xDF then
      match rest with
      | b2 :: rest2 =>
        if 0x80 ≤ b2 && b2 ≤ 0xBF then
          match utf8DecodeF fuel rest2 with
          | Except.ok cs => Except.ok (Char.ofNat ((b1 - 0xC0) * 64 + (b2 - 0x80)) :: cs)
          | Except.error e => Except.error e
        else Except.error "UnicodeDecodeError"
      | [] => Except.error "UnicodeDecodeError"
    else if 0xE0 ≤ b1 && b1 ≤ 0xEF then
      match rest with
      | b2 :: b3 :: rest3 =>
        if (if b1 = 0xE0 then 0xA0 ≤ b2 && b2 ≤ 0xBF
            else if b1 = 0xED then 0x80 ≤ b2 && b2 ≤ 0x9F
            else 0x80 ≤ b2 && b2 ≤ 0xBF) && (0x80 ≤ b3 && b3 ≤ 0xBF) then
          match utf8DecodeF fuel rest3 with
          | Except.ok cs =>
            Except.ok (Char.ofNat ((b1 - 0xE0) * 4096 + (b2 - 0x80) * 64 + (b3 - 0x80)) :: cs)
          | Except.error e => Except.error e
        else Except.error "UnicodeDecodeError"
      | _ => Except.error "UnicodeDecodeError"
    else if 0xF0 ≤ b1 && b1 ≤ 0xF4 then
      match rest with
      | b2 :: b3 :: b4 :: rest4 =>
        if (if b1 = 0xF0 then 0x90 ≤ b2 && b2 ≤ 0xBF
            else if b1 = 0xF4 then 0x80 ≤ b2 && b2 ≤ 0x8F
            else 0x80 ≤ b2 && b2 ≤ 0xBF) &&
            (0x80 ≤ b3 && b3 ≤ 0xBF) && (0x80 ≤ b4 && b4 ≤ 0xBF) then
          match utf8DecodeF fuel rest4 with
          | Except.ok cs =>
            Except.ok (Char.ofNat
              ((b1 - 0xF0) * 262144 + (b2 - 0x80) * 4096 + (b3 - 0x80) * 64 + (b4 - 0x80)) :: cs)
          | Except.error e => Except.error e
        else Except.error "UnicodeDecodeError"
      | _ => Except.error "UnicodeDecodeError"
    else Except.error "UnicodeDecodeError"

/-- Strict utf-8 decoding of a byte sequence, as Python bytes.decode()
performs; an error models the UnicodeDecodeError it raises. -/
def utf8Decode (bs : List Nat) : Except String (List Char) :=
  utf8DecodeF bs.length bs

/-- Is c one of the ascii whitespace characters that Python's str.strip()
removes?  (Python also strips some rarer unicode whitespace; the requests
the claims quantify over are ascii.) -/
def isPySpace (c : Char) : Bool :=
  c == ' ' || c == '\t' || c == '\n' || c == '\r' ||
    c == Char.ofNat 11 || c == Char.ofNat 12

/-- Python str.strip(): remove leading and trailing whitespace. -/
def pyStrip (s : String) : String :=
  ⟨((s.data.dropWhile isPySpace).reverse.dropWhile isPySpace).reverse⟩

/-- Python int(s) for a decimal string: strips surrounding whitespace, then
an optional sign followed by at least one digit; anything else raises
ValueError (modelled as Except.error).  Underscore digit grouping is not
modelled. -/
def pyInt (s : String) : Except String Int :=
  let t := (pyStrip s).data
  let core : List Char :=
    match t with
    | '+' :: rest => rest
    | '-' :: rest => rest
    | _ => t
  if core ≠ [] && core.all (fun c => c.isDigit) then
    let n : Nat := core.foldl (fun acc c => acc * 10 + (c.toNat - '0'.toNat)) 0
    match t with
    | '-' :: _ => Except.ok (-(n : Int))
    | _ => Except.ok (n : Int)
  else
    Except.error "invalid literal for int() with base 10"

/-- Python str.startswith(pre), on the underlying character lists. -/
def pyStartsWith (s pre : String) : Bool :=
  pre.data.isPrefixOf s.data

/-- Python s[n:], on the underlying character list. -/
def pyDrop (s : String) (n : Nat) : String :=
  ⟨s.data.drop n⟩

/-- The function check_auth of the source: take the Authorization header
(empty string when absent), require the prefix "Basic ", base64-decode the
remainder auth[6:], utf-8-decode the bytes, and compare with
f'{AUTH_USER}:{AUTH_PASS}' by string equality.  An Except.error models the
exception that base64.b64decode or bytes.decode raises escaping check_auth,
since the source has no try/except around it. -/
def check_auth (authorization : Option String) : Except String Bool :=
  let auth := authorization.getD ""
  if pyStartsWith auth "Basic " then
    match b64decodePy (pyDrop auth 6) with
    | Except.error e => Except.error e
    | Except.ok bytes =>
      match utf8Decode bytes with
      | Except.error e => Except.error e
      | Except.ok chars =>
        Except.ok (String.mk chars == AUTH_USER ++ ":" ++ AUTH_PASS)
  else
    Except.ok false

/-! ## The request handler -/

/-- An inbound HTTP request as the handler sees it: the Authorization and
Content-Length headers (None when absent) and the raw body bytes waiting on
the socket. -/
structure Request where
  authorization : Option String
  contentLength : Option String
  body : List Nat

/-- An HTTP response: status code, the explicitly set extra headers in
order, and the body text that is written (the source always encodes
str bodies as utf-8 bytes). -/
structure Response where
  status : Nat
  headers : List (String × String)
  body : String
  deriving Repr, DecidableEq

/-- Outcome of one opener.open(req, timeout=15).read().decode() attempt
inside fetch_via_proxy: ok with the decoded body, or err with str(e) for
the exception e the attempt raised (connection refused, timeout, proxy auth
failure, non-decodable response, ...). -/
inductive FetchOutcome where
  | ok (body : String)
  | err (msg : String)
  deriving Repr, DecidableEq

/-- The network, as an oracle: what one fetch attempt through a given proxy
of a given (already rewritten) URL does. -/
def FetchOracle : Type := Proxy → String → FetchOutcome

/-- The function fetch_via_proxy of the source: rewrite ClientIp in the
target URL to the proxy's ip, then attempt the fetch through that proxy;
the try/except means it always returns a result dict and never raises.
On success the result carries the body and proxy['ip']. -/
def fetch_via_proxy (oracle : FetchOracle) (proxy : Proxy) (target_url : String) :
    FetchOutcome :=
  oracle proxy (replace_client_ip target_url proxy.ip)

/-- The for-loop of do_POST over a proxy list: try each proxy in order,
recording each attempt (the [GW] log lines) as (proxy ip, outcome); stop at
the first success, returning its body and proxy ip. -/
def tryProxies (oracle : FetchOracle) (target_url : String) :
    List Proxy → List (String × FetchOutcome) × Option (String × String)
  | [] => ([], none)
  | p :: ps =>
    match fetch_via_proxy oracle p target_url with
    | FetchOutcome.ok body => ([(p.ip, FetchOutcome.ok body)], some (body, p.ip))
    | FetchOutcome.err e =>
      let r := tryProxies oracle target_url ps
      ((p.ip, FetchOutcome.err e) :: r.1, r.2)

/-- The Content-Length computation int(self.headers.get('Content-Length', 0)):
int() is applied to the header string when present (raising ValueError on a
non-numeric value) and to the int 0 when absent. -/
def contentLengthOf (req : Request) : Except String Int :=
  match req.contentLength with
  | none => Except.ok 0
  | some s => pyInt s

/-- The body read self.rfile.read(length): at most length bytes are taken
from the socket (a negative length makes a buffered read consume
everything). -/
def pyRead (n : Int) (body : List Nat) : List Nat :=
  if n < 0 then body else body.take n.toNat

/-- Steps of do_POST between auth and URL validation: compute the length,
read that many body bytes, utf-8-decode them (raising on invalid utf-8) and
strip surrounding whitespace, giving the target URL. -/
def readTarget (req : Request) : Except String String :=
  match contentLengthOf req with
  | Except.error e => Except.error e
  | Except.ok n =>
    match utf8Decode (pyRead n req.body) with
    | Except.error e => Except.error e
    | Except.ok chars => Except.ok (pyStrip (String.mk chars))

/-- The method do_POST of the Handler class, one linear pass:
authenticate (401 Unauthorized on bad credentials), read and validate the
body (400 Invalid URL unless it starts with https://), try the PROXIES in
order, answer 200 with Content-Type text/xml and X-Proxy-IP on the first
success, 502 all_proxies_failed if every attempt failed.  The first
component of the result is the trace of fetch attempts; Except.error models
an exception escaping do_POST (no response is sent in that case, as the
source has no try/except around these steps). -/
def do_POST (oracle : FetchOracle) (req : Request) :
    Except String (List (String × FetchOutcome) × Response) :=
  match check_auth req.authorization with
  | Except.error e => Except.error e
  | Except.ok authOk =>
    if authOk = false then
      Except.ok ([], ⟨401, [], "Unauthorized"⟩)
    else
      match readTarget req with
      | Except.error e => Except.error e
      | Except.ok target_url =>
        if pyStartsWith target_url "https://" = false then
          Except.ok ([], ⟨400, [], "Invalid URL"⟩)
        else
          match tryProxies oracle target_url PROXIES with
          | (trace, some (body, proxy_ip)) =>
            Except.ok (trace,
              ⟨200, [("Content-Type", "text/xml"), ("X-Proxy-IP", proxy_ip)], body⟩)
          | (trace, none) =>
            Except.ok (trace, ⟨502, [], "all_proxies_failed"⟩)

/-- Method dispatch of the serving machinery.  Modelled from the spec and
the Python standard library http.server: BaseHTTPRequestHandler looks for a
method named do_<COMMAND> on the Handler class; the source defines only
do_POST, so every other command is answered directly by
send_error(501, "Unsupported method (...)") without touching the handler's
code. -/
def handle_request (oracle : FetchOracle) (method : String) (req : Request) :
    Except String (List (String × FetchOutcome) × Response) :=
  if method = "POST" then
    do_POST oracle req
  else
    Except.ok ([], ⟨501, [], "Unsupported method"⟩)

/-- Does the regex ClientIp=[^&]+ match anywhere in s?  True exactly when
some position of s starts an occurrence of "ClientIp=" followed by at least
one non-'&' character. -/
def hasMatch : List Char → Bool
  | [] => false
  | c :: cs => isMatch (c :: cs) || hasMatch cs

/-- Modelled from the spec's notion of query parameter (the source itself
never parses the query string): the names of the query parameters of a URL
are the parts before the first '=' of each '&'-separated segment of the
text after the first '?'.  Used only to state claims that speak of the
ClientIp parameter being present or absent. -/
def specQueryParamNames (url : String) : List String :=
  let q := (url.data.dropWhile (fun c => c ≠ '?')).drop 1
  (q.splitOn '&').map (fun seg => String.mk (seg.takeWhile (fun c => c ≠ '=')))


/-! ## Lemmas: basic equations for the regex scan -/

/-- Length bound for the text skipped by one match of the re.sub scan. -/
theorem length_skip_lt (c : Char) (cs : List Char) :
    (((c :: cs).drop 9).dropWhile (fun d => d ≠ '&')).length < (c :: cs).length := by
  have h1 : (((c :: cs).drop 9).dropWhile (fun d => d ≠ '&')).length ≤
      ((c :: cs).drop 9).length := (List.dropWhile_sublist _).length_le
  have h2 : ((c :: cs).drop 9).length = (c :: cs).length - 9 :=
    List.length_drop 9 (c :: cs)
  simp only [List.length_cons] at *
  omega

/-- The fuel does not matter as long as it covers the length of the text. -/
theorem reSubF_fuel (H : List Char) :
    ∀ (fuel fuel' : Nat) (s : List Char), s.length ≤ fuel → s.length ≤ fuel' →
      reSubF H fuel s = reSubF H fuel' s := by
  intro fuel
  induction fuel with
  | zero =>
    intro fuel' s hs _
    cases s with
    | nil => cases fuel' <;> rfl
    | cons c cs => simp at hs
  | succ f ih =>
    intro fuel' s hs hs'
    cases s with
    | nil => cases fuel' <;> rfl
    | cons c cs =>
      cases fuel' with
      | zero => simp at hs'
      | succ f' =>
        simp only [reSubF]
        by_cases hm : isMatch (c :: cs) = true
        · simp only [hm, if_true]
          have hlt := length_skip_lt c cs
          have h1 : (((c :: cs).drop 9).dropWhile (fun d => d ≠ '&')).length ≤ f := by
            simp only [List.length_cons] at hs hlt ⊢
            omega
          have h2 : (((c :: cs).drop 9).dropWhile (fun d => d ≠ '&')).length ≤ f' := by
            simp only [List.length_cons] at hs' hlt ⊢
            omega
          rw [ih f' _ h1 h2]
        · simp only [hm, Bool.false_eq_true, if_false]
          have h1 : cs.length ≤ f := by
            simp only [List.length_cons] at hs
            omega
          have h2 : cs.length ≤ f' := by
            simp only [List.length_cons] at hs'
            omega
          rw [ih f' _ h1 h2]

/-! ### Basic equations for reSub -/

theorem reSub_nil (H : List Char) : reSub H [] = [] := rfl

theorem reSub_match (H : List Char) (c : Char) (cs : List Char)
    (h : isMatch (c :: cs) = true) :
    reSub H (c :: cs) =
      cIpPat ++ H ++ reSub H (((c :: cs).drop 9).dropWhile (fun d => d ≠ '&')) := by
  have hlt := length_skip_lt c cs
  simp only [reSub, List.length_cons, reSubF, h, if_true]
  rw [reSubF_fuel H cs.length _ _ (by simp only [List.length_cons] at hlt; omega) le_rfl]

theorem reSub_nomatch (H : List Char) (c : Char) (cs : List Char)
    (h : isMatch (c :: cs) = false) :
    reSub H (c :: cs) = c :: reSub H cs := by
  simp only [reSub, List.length_cons, reSubF, h, Bool.false_eq_true, if_false]

/-! ## Lemmas: structure of the pattern "ClientIp=" -/

theorem cIpPat_eq : cIpPat = ['C', 'l', 'i', 'e', 'n', 't', 'I', 'p', '='] := rfl

theorem cIpPat_length : cIpPat.length = 9 := rfl

theorem amp_not_mem_cIpPat : '&' ∉ cIpPat := by decide

/-- The pattern has no nontrivial border: no proper nonempty suffix of it is
also a prefix, so no occurrence of the pattern can straddle the start of an
explicitly written copy of the pattern. -/
theorem cIpPat_borderless (k : Nat) (h1 : 1 ≤ k) (h2 : k ≤ 8) :
    cIpPat.drop k ≠ cIpPat.take (9 - k) := by
  interval_cases k <;> decide

theorem isMatch_nil : isMatch [] = false := rfl

/-- Unfolding of the scan at a matching position, without exposing the cons
cell. -/
theorem reSub_eq_match (H : List Char) (s : List Char) (h : isMatch s = true) :
    reSub H s = cIpPat ++ H ++ reSub H ((s.drop 9).dropWhile (fun d => d ≠ '&')) := by
  cases s with
  | nil => simp [isMatch_nil] at h
  | cons c cs => exact reSub_match H c cs h

/-- A position whose first character is not 'C' never starts a match. -/
theorem isMatch_cons_ne (c : Char) (cs : List Char) (h : c ≠ 'C') :
    isMatch (c :: cs) = false := by
  have : cIpPat.isPrefixOf (c :: cs) = false := by
    rw [cIpPat_eq]
    simp only [List.isPrefixOf, Bool.and_eq_false_iff]
    left
    simpa using fun h' => h h'.symm
  simp [isMatch, this]

/-- If a match starts at s then "ClientIp=" is a literal prefix of s. -/
theorem prefix_of_isMatch (s : List Char) (h : isMatch s = true) : cIpPat <+: s := by
  simp only [isMatch, Bool.and_eq_true] at h
  exact List.isPrefixOf_iff_prefix.mp h.1

/-- The scan at "ClientIp=" ++ v ++ b where v is the nonempty &-free value
and b the rest (empty or starting at the delimiting '&'): the whole of
"ClientIp=" ++ v is consumed, "ClientIp=" ++ H is emitted, and the scan
continues at b. -/
theorem reSub_step (H v b : List Char) (hv : v ≠ []) (hvAmp : ∀ c ∈ v, ¬ c = '&')
    (hb : b = [] ∨ ∃ b', b = '&' :: b') :
    reSub H (cIpPat ++ (v ++ b)) = cIpPat ++ H ++ reSub H b := by
  have hdrop : (cIpPat ++ (v ++ b)).drop 9 = v ++ b := by
    rw [← cIpPat_length, List.drop_left]
  have hm : isMatch (cIpPat ++ (v ++ b)) = true := by
    simp only [isMatch, Bool.and_eq_true]
    refine ⟨List.isPrefixOf_iff_prefix.mpr (List.prefix_append _ _), ?_⟩
    rw [hdrop]
    cases v with
    | nil => exact absurd rfl hv
    | cons d v' =>
      have hd : ¬ d = '&' := hvAmp d (List.mem_cons_self d v')
      simp [bne_iff_ne, hd]
  rw [reSub_eq_match H _ hm, hdrop]
  congr 1
  have hvNil : v.dropWhile (fun d => d ≠ '&') = [] :=
    List.dropWhile_eq_nil_iff.mpr (fun x hx => by simpa using hvAmp x hx)
  rw [List.dropWhile_append, hvNil]
  simp only [List.isEmpty_nil, if_true]
  rcases hb with hb | ⟨b', hb⟩
  · simp [hb]
  · subst hb
    simp

/-- If no nonempty suffix of a starts a match when followed by t, the scan
passes a through unchanged and continues on t. -/
theorem reSub_passthrough (H a t : List Char)
    (h : ∀ a2, a2 ≠ [] → a2 <:+ a → isMatch (a2 ++ t) = false) :
    reSub H (a ++ t) = a ++ reSub H t := by
  induction a with
  | nil => simp
  | cons c a' ih =>
    have h1 : isMatch (c :: (a' ++ t)) = false := by
      have := h (c :: a') (by simp) (List.suffix_refl _)
      simpa using this
    rw [List.cons_append, reSub_nomatch _ _ _ h1,
      ih (fun a2 hne hsuf => h a2 hne (hsuf.trans (List.suffix_cons c a')))]
    simp

/-- If the pattern is a prefix of a2 ++ x with at least nine characters of
a2, the pattern occurs inside any list having a2 as a suffix. -/
theorem occ_of_long_start (a a2 x : List Char) (hsuf : a2 <:+ a)
    (hk : 9 ≤ a2.length) (hp : cIpPat <+: a2 ++ x) : cIpPat <:+: a := by
  have h9 : cIpPat = (a2 ++ x).take 9 := by
    have h1 := List.prefix_iff_eq_take.mp hp
    rwa [cIpPat_length] at h1
  have h2 : (a2 ++ x).take 9 = a2.take 9 := List.take_append_of_le_length hk
  have hpre : cIpPat <+: a2 := by
    rw [h9, h2]
    exact List.take_prefix 9 a2
  obtain ⟨u, hu⟩ := hpre
  obtain ⟨w, hw⟩ := hsuf
  exact ⟨w, u, by rw [← hw, ← hu, List.append_assoc]⟩

/-- If the pattern is a prefix of a2 ++ x with fewer than nine characters
of a2, the pattern is a2 followed by the start of x. -/
theorem pat_eq_of_short_start (a2 x : List Char) (hk : a2.length < 9)
    (hp : cIpPat <+: a2 ++ x) : cIpPat = a2 ++ x.take (9 - a2.length) := by
  have h1 := List.prefix_iff_eq_take.mp hp
  rw [cIpPat_length] at h1
  rw [h1, List.take_append_eq_append_take, List.take_of_length_le (Nat.le_of_lt hk)]

/-- No match can start inside a (including straddling its right end) when a
has no occurrence of "ClientIp=" and the text after a starts with the
pattern itself: straddling is ruled out because the pattern has no border. -/
theorem not_isMatch_before_pat (a t : List Char) (ha : ¬ cIpPat <:+: a) :
    ∀ a2, a2 ≠ [] → a2 <:+ a → isMatch (a2 ++ (cIpPat ++ t)) = false := by
  intro a2 hne hsuf
  by_contra hcon
  rw [Bool.not_eq_false] at hcon
  have hp := prefix_of_isMatch _ hcon
  rcases le_or_lt 9 a2.length with hk | hk
  · exact ha (occ_of_long_start a a2 _ hsuf hk hp)
  · have hk1 : 1 ≤ a2.length := by
      have := List.length_pos.mpr hne
      omega
    have h9 := pat_eq_of_short_start a2 _ hk hp
    rw [List.take_append_of_le_length (by rw [cIpPat_length]; omega)] at h9
    have hdrop : cIpPat.drop a2.length = cIpPat.take (9 - a2.length) := by
      conv_lhs => rw [h9]
      rw [List.drop_left]
    exact cIpPat_borderless a2.length hk1 (by omega) hdrop

/-- No match can start inside a when a has no occurrence of "ClientIp=" and
the text after a is empty or starts with '&'. -/
theorem not_isMatch_before_amp (a t : List Char) (ha : ¬ cIpPat <:+: a)
    (ht : t = [] ∨ ∃ t', t = '&' :: t') :
    ∀ a2, a2 ≠ [] → a2 <:+ a → isMatch (a2 ++ t) = false := by
  intro a2 hne hsuf
  by_contra hcon
  rw [Bool.not_eq_false] at hcon
  have hp := prefix_of_isMatch _ hcon
  rcases le_or_lt 9 a2.length with hk | hk
  · exact ha (occ_of_long_start a a2 _ hsuf hk hp)
  · rcases ht with rfl | ⟨t', rfl⟩
    · have := hp.length_le
      rw [cIpPat_length] at this
      simp at this
      omega
    · have h9 := pat_eq_of_short_start a2 _ hk hp
      have hmem : '&' ∈ cIpPat := by
        rw [h9]
        apply List.mem_append_right
        cases h98 : 9 - a2.length with
        | zero => omega
        | succ m =>
          simp [List.take_cons]
      exact amp_not_mem_cIpPat hmem

/-- The scan passes over a "ClientIp="-free region that is followed by an
explicit copy of the pattern. -/
theorem passthrough_before_pat (H a t : List Char) (ha : ¬ cIpPat <:+: a) :
    reSub H (a ++ (cIpPat ++ t)) = a ++ reSub H (cIpPat ++ t) :=
  reSub_passthrough H a _ (not_isMatch_before_pat a t ha)

/-- The scan passes over a "ClientIp="-free region that is followed by
nothing or by a '&'. -/
theorem passthrough_before_amp (H a t : List Char) (ha : ¬ cIpPat <:+: a)
    (ht : t = [] ∨ ∃ t', t = '&' :: t') :
    reSub H (a ++ t) = a ++ reSub H t :=
  reSub_passthrough H a t (not_isMatch_before_amp a t ha ht)

/-- The scan passes over a copy of the pattern whose value slot is empty:
"ClientIp=" followed by nothing or by '&' is not a match (the regex needs a
nonempty value), and no match can start inside the pattern. -/
theorem reSub_pat_amp (H t : List Char) (ht : t = [] ∨ ∃ t', t = '&' :: t') :
    reSub H (cIpPat ++ t) = cIpPat ++ reSub H t := by
  apply reSub_passthrough
  intro a2 hne hsuf
  rcases Nat.lt_or_ge a2.length 9 with hk | hk
  · by_contra hcon
    rw [Bool.not_eq_false] at hcon
    have hp := prefix_of_isMatch _ hcon
    rcases ht with rfl | ⟨t', rfl⟩
    · have := hp.length_le
      rw [cIpPat_length] at this
      simp at this
      omega
    · have h9 := pat_eq_of_short_start a2 _ hk hp
      have hmem : '&' ∈ cIpPat := by
        rw [h9]
        apply List.mem_append_right
        cases h98 : 9 - a2.length with
        | zero => omega
        | succ m => simp [List.take_cons]
      exact amp_not_mem_cIpPat hmem
  · have hlen : a2.length = 9 := by
      have := hsuf.length_le
      rw [cIpPat_length] at this
      omega
    have ha2 : a2 = cIpPat := hsuf.eq_of_length (by rw [hlen, cIpPat_length])
    subst ha2
    simp only [isMatch, Bool.and_eq_false_iff]
    right
    rw [← cIpPat_length, List.drop_left]
    rcases ht with rfl | ⟨t', rfl⟩
    · rfl
    · simp

/-- Text with no occurrence of "ClientIp=" at all is left unchanged. -/
theorem reSub_id_of_no_occ (H s : List Char) (h : ¬ cIpPat <:+: s) :
    reSub H s = s := by
  induction s with
  | nil => exact reSub_nil H
  | cons c cs ih =>
    have hm : isMatch (c :: cs) = false := by
      by_contra hcon
      rw [Bool.not_eq_false] at hcon
      exact h (prefix_of_isMatch _ hcon).isInfix
    rw [reSub_nomatch _ _ _ hm, ih (fun hin => h (List.infix_cons hin))]

/-- Text in which the regex has no match anywhere is left unchanged. -/
theorem reSub_id_of_hasMatch_false (H s : List Char) (h : hasMatch s = false) :
    reSub H s = s := by
  induction s with
  | nil => exact reSub_nil H
  | cons c cs ih =>
    simp only [hasMatch, Bool.or_eq_false_iff] at h
    rw [reSub_nomatch _ _ _ h.1, ih h.2]

/-- A list with the pattern as a prefix splits as pattern ++ remainder. -/
theorem eq_pat_append_drop (s : List Char) (hpre : cIpPat <+: s) :
    s = cIpPat ++ s.drop 9 := by
  have h1 := List.prefix_iff_eq_take.mp hpre
  rw [cIpPat_length] at h1
  conv_lhs => rw [← List.take_append_drop 9 s]
  rw [← h1]

/-- What remains after dropWhile (≠ '&') is empty or starts with '&'. -/
theorem dropWhile_amp_shape (r : List Char) :
    r.dropWhile (fun d => d ≠ '&') = [] ∨
      ∃ b', r.dropWhile (fun d => d ≠ '&') = '&' :: b' := by
  rcases h : r.dropWhile (fun d => d ≠ '&') with _ | ⟨x, xs⟩
  · exact Or.inl rfl
  · refine Or.inr ⟨xs, ?_⟩
    have hne : r.dropWhile (fun d => d ≠ '&') ≠ [] := by
      rw [h]
      exact List.cons_ne_nil x xs
    have h3 : (r.dropWhile (fun d => d ≠ '&')).head hne = x := by
      simp only [h, List.head_cons]
    have h2 := List.head_dropWhile_not (fun d => d ≠ '&') r hne
    rw [h3] at h2
    have hx : x = '&' := by simpa using h2
    rw [hx]

/-- Everything kept by takeWhile (≠ '&') is not '&'. -/
theorem takeWhile_amp_all (r : List Char) :
    ∀ c ∈ r.takeWhile (fun d => d ≠ '&'), ¬ c = '&' :=
  fun _ hc => by simpa using List.mem_takeWhile_imp hc

/-- The scan at an explicit pattern copy followed by a nonempty &-free-head
value: emit the replacement and continue after the maximal non-'&' run. -/
theorem reSub_pat_cons (H : List Char) (d : Char) (r' : List Char) (hd : ¬ d = '&') :
    reSub H (cIpPat ++ (d :: r')) =
      cIpPat ++ H ++ reSub H ((d :: r').dropWhile (fun x => x ≠ '&')) := by
  conv_lhs => rw [← List.takeWhile_append_dropWhile (fun x => x ≠ '&') (d :: r')]
  exact reSub_step H _ _ (by simp [List.takeWhile_cons, hd]) (takeWhile_amp_all _)
    (dropWhile_amp_shape _)

/-- A matching position decomposes as the pattern followed by a value whose
first character is not '&'. -/
theorem isMatch_decomp (s : List Char) (h : isMatch s = true) :
    ∃ d r', ¬ d = '&' ∧ s = cIpPat ++ (d :: r') := by
  have hpre := prefix_of_isMatch s h
  have hsplit := eq_pat_append_drop s hpre
  simp only [isMatch, Bool.and_eq_true] at h
  rcases hre : s.drop 9 with _ | ⟨d, r'⟩
  · rw [hre] at h
    exact absurd h.2 (by simp)
  · rw [hre] at h
    exact ⟨d, r', by simpa using h.2, by rw [hsplit, hre]⟩

/-- No character 'C' in a prefix of the scan's output means the prefix was
already there in the input: the scan only inserts text starting with 'C'. -/
theorem prefix_of_prefix_reSub (H : List Char) (w t : List Char) (hw : 'C' ∉ w)
    (h : w <+: reSub H t) : w <+: t := by
  induction t generalizing w with
  | nil =>
    rw [reSub_nil] at h
    exact h
  | cons c cs ih =>
    by_cases hm : isMatch (c :: cs) = true
    · rw [reSub_eq_match _ _ hm] at h
      cases w with
      | nil => exact List.nil_prefix
      | cons w0 w1 =>
        have hC : cIpPat ++ H ++ reSub H (((c :: cs).drop 9).dropWhile (fun d => d ≠ '&')) =
            'C' :: ("lientIp=".data ++ H ++
              reSub H (((c :: cs).drop 9).dropWhile (fun d => d ≠ '&'))) := rfl
        rw [hC] at h
        obtain ⟨h0, _⟩ := List.cons_prefix_cons.mp h
        exact absurd (by rw [h0]; exact List.mem_cons_self _ _) hw
    · have hmf : isMatch (c :: cs) = false := by simpa using hm
      rw [reSub_nomatch _ _ _ hmf] at h
      cases w with
      | nil => exact List.nil_prefix
      | cons w0 w1 =>
        obtain ⟨h0, h1⟩ := List.cons_prefix_cons.mp h
        have hw1 : 'C' ∉ w1 := fun hc => hw (List.mem_cons_of_mem _ hc)
        exact List.cons_prefix_cons.mpr ⟨h0, ih w1 hw1 h1⟩

/-- The output of the scan at text that is empty or starts with '&' is
empty or starts with '&'. -/
theorem reSub_amp_shape (H t : List Char) (ht : t = [] ∨ ∃ t', t = '&' :: t') :
    reSub H t = [] ∨ ∃ x, reSub H t = '&' :: x := by
  rcases ht with rfl | ⟨t', rfl⟩
  · exact Or.inl (reSub_nil H)
  · exact Or.inr ⟨reSub H t', reSub_nomatch H _ _ (isMatch_cons_ne _ _ (by decide))⟩

/-- Idempotence of the substitution for a replacement with no '&': applying
the scan to its own output changes nothing, by strong induction on the
length of the text. -/
theorem reSub_idem_aux (H : List Char) (hH : ∀ c ∈ H, ¬ c = '&') :
    ∀ n s, s.length ≤ n → reSub H (reSub H s) = reSub H s := by
  intro n
  induction n with
  | zero =>
    intro s hs
    have h0 : s = [] := List.length_eq_zero.mp (Nat.le_zero.mp hs)
    subst h0
    simp [reSub_nil]
  | succ n ih =>
    intro s hs
    cases s with
    | nil => simp [reSub_nil]
    | cons c cs =>
      by_cases hm : isMatch (c :: cs) = true
      · obtain ⟨d, r', hd, hsplit⟩ := isMatch_decomp _ hm
        have e1 : reSub H (c :: cs) =
            cIpPat ++ H ++ reSub H ((d :: r').dropWhile (fun x => x ≠ '&')) := by
          rw [hsplit]
          exact reSub_pat_cons H d r' hd
        have hlen : ((d :: r').dropWhile (fun x => x ≠ '&')).length ≤ n := by
          have h1 : ((d :: r').dropWhile (fun x => x ≠ '&')).length ≤ (d :: r').length :=
            (List.dropWhile_sublist _).length_le
          have h2 : (c :: cs).length = cIpPat.length + (d :: r').length := by
            rw [hsplit]
            exact List.length_append _ _
          rw [cIpPat_length] at h2
          simp only [List.length_cons] at *
          omega
        have hreb := reSub_amp_shape H _ (dropWhile_amp_shape (d :: r'))
        rw [e1]
        cases H with
        | nil =>
          simp only [List.append_nil]
          rw [reSub_pat_amp [] _ hreb, ih _ hlen]
        | cons h0 H' =>
          rw [List.append_assoc, reSub_step (h0 :: H') (h0 :: H') _ (by simp) hH hreb,
            ih _ hlen]
          exact List.append_assoc _ _ _
      · have hmf : isMatch (c :: cs) = false := by simpa using hm
        by_cases hpre : cIpPat <+: (c :: cs)
        · have hsplit := eq_pat_append_drop _ hpre
          have hrAmp : (c :: cs).drop 9 = [] ∨ ∃ r', (c :: cs).drop 9 = '&' :: r' := by
            simp only [isMatch, Bool.and_eq_false_iff] at hmf
            rcases hmf with h1 | h2
            · exact absurd (List.isPrefixOf_iff_prefix.mpr hpre) (by simp [h1])
            · rcases hre : (c :: cs).drop 9 with _ | ⟨d, r'⟩
              · exact Or.inl rfl
              · rw [hre] at h2
                have hde : d = '&' := by simpa using h2
                exact Or.inr ⟨r', by rw [← hde]⟩
          have hrlen : ((c :: cs).drop 9).length ≤ n := by
            rw [List.length_drop]
            simp only [List.length_cons] at hs ⊢
            omega
          have e1 : reSub H (c :: cs) = cIpPat ++ reSub H ((c :: cs).drop 9) := by
            conv_lhs => rw [hsplit]
            exact reSub_pat_amp H _ hrAmp
          have hrr := reSub_amp_shape H _ hrAmp
          rw [e1, reSub_pat_amp H _ hrr, ih _ hrlen]
        · rw [reSub_nomatch H c cs hmf]
          have hm2 : isMatch (c :: reSub H cs) = false := by
            by_contra hcon
            rw [Bool.not_eq_false] at hcon
            have hp2 := prefix_of_isMatch _ hcon
            have hpc : cIpPat = 'C' :: "lientIp=".data := rfl
            rw [hpc] at hp2
            obtain ⟨h0, h1⟩ := List.cons_prefix_cons.mp hp2
            have h1' := prefix_of_prefix_reSub H _ cs (by decide) h1
            exact hpre (by rw [hpc]; exact List.cons_prefix_cons.mpr ⟨h0, h1'⟩)
          rw [reSub_nomatch H c _ hm2,
            ih cs (by simp only [List.length_cons] at hs; omega)]

/-- Idempotence of the substitution for a replacement with no '&'. -/
theorem reSub_idem (H : List Char) (hH : ∀ c ∈ H, ¬ c = '&') (s : List Char) :
    reSub H (reSub H s) = reSub H s :=
  reSub_idem_aux H hH s.length s le_rfl

/-- A list whose optional head is '&' is '&' followed by a tail. -/
theorem amp_shape_of_head (t : List Char) (h : t.head? = some '&') :
    ∃ t', t = '&' :: t' := by
  cases t with
  | nil => simp at h
  | cons x xs =>
    simp only [List.head?_cons, Option.some.injEq] at h
    exact ⟨xs, by rw [h]⟩

/-- A match starting at a suffix of a is a match somewhere in a. -/
theorem hasMatch_of_isMatch_suffix (a2 a : List Char) (h1 : isMatch a2 = true)
    (h2 : a2 <:+ a) : hasMatch a = true := by
  induction a with
  | nil =>
    rw [List.suffix_nil.mp h2] at h1
    simp [isMatch_nil] at h1
  | cons c cs ih =>
    rcases List.suffix_cons_iff.mp h2 with rfl | h2'
    · simp [hasMatch, h1]
    · simp [hasMatch, ih h2']

/-- If "ClientIp=" is a prefix of a2 ++ x with at least nine characters of
a2, it is already a prefix of a2. -/
theorem pat_prefix_of_long (a2 x : List Char) (hk : 9 ≤ a2.length)
    (hp : cIpPat <+: a2 ++ x) : cIpPat <+: a2 := by
  have h9 : cIpPat = (a2 ++ x).take 9 := by
    have h1 := List.prefix_iff_eq_take.mp hp
    rwa [cIpPat_length] at h1
  rw [h9, List.take_append_of_le_length hk]
  exact List.take_prefix 9 a2

/-- No match can start inside a region that has no match of its own and
does not end in "ClientIp=", when an explicit copy of the pattern follows:
a straddling match shorter than the pattern is ruled out because the
pattern has no border, a match whose tenth character lies inside the region
would be a match of the region, and the only remaining start position would
make the region end in "ClientIp=". -/
theorem not_isMatch_clean_before_pat (a x : List Char) (ha : hasMatch a = false)
    (haSuf : ¬ cIpPat <:+ a) :
    ∀ a2, a2 ≠ [] → a2 <:+ a → isMatch (a2 ++ (cIpPat ++ x)) = false := by
  intro a2 hne hsuf
  by_contra hcon
  rw [Bool.not_eq_false] at hcon
  have hp := prefix_of_isMatch _ hcon
  rcases lt_or_ge a2.length 9 with hk | hk
  · have hk1 : 1 ≤ a2.length := by
      have := List.length_pos.mpr hne
      omega
    have h9 := pat_eq_of_short_start a2 _ hk hp
    rw [List.take_append_of_le_length (by rw [cIpPat_length]; omega)] at h9
    have hdrop : cIpPat.drop a2.length = cIpPat.take (9 - a2.length) := by
      conv_lhs => rw [h9]
      rw [List.drop_left]
    exact cIpPat_borderless a2.length hk1 (by omega) hdrop
  · have hpre2 : cIpPat <+: a2 := pat_prefix_of_long a2 _ hk hp
    rcases Nat.eq_or_lt_of_le hk with hk9 | hk9
    · have ha2 : a2 = cIpPat :=
        (List.IsPrefix.eq_of_length hpre2 (by rw [cIpPat_length, ← hk9])).symm
      exact haSuf (by rw [← ha2]; exact hsuf)
    · have hd : a2.drop 9 ≠ [] := by
        rw [← List.length_pos, List.length_drop]
        omega
      obtain ⟨d, rest, hdr⟩ := List.exists_cons_of_ne_nil hd
      simp only [isMatch, Bool.and_eq_true] at hcon
      have hdropApp : (a2 ++ (cIpPat ++ x)).drop 9 = a2.drop 9 ++ (cIpPat ++ x) := by
        rw [List.drop_append_eq_append_drop, Nat.sub_eq_zero_of_le hk, List.drop_zero]
      rw [hdropApp, hdr, List.cons_append] at hcon
      have hm2 : isMatch a2 = true := by
        simp only [isMatch, Bool.and_eq_true]
        refine ⟨List.isPrefixOf_iff_prefix.mpr hpre2, ?_⟩
        rw [hdr]
        exact hcon.2
      rw [hasMatch_of_isMatch_suffix a2 a hm2 hsuf] at ha
      exact Bool.noConfusion ha

/-- Pass-through over a region with no match inside that does not end in
"ClientIp=", followed by an explicit copy of the pattern. -/
theorem passthrough_clean_before_pat (H a t : List Char) (ha : hasMatch a = false)
    (haSuf : ¬ cIpPat <:+ a) (ht : ∃ x, t = cIpPat ++ x) :
    reSub H (a ++ t) = a ++ reSub H t := by
  obtain ⟨x, rfl⟩ := ht
  exact reSub_passthrough H a _ (not_isMatch_clean_before_pat a x ha haSuf)

/-- The scan over a fully general chain of matches: a last occurrence
"ClientIp=" ++ vLast followed by a tail t (empty or '&'-led, no match
inside), preceded by any number of occurrences "ClientIp=" ++ v with
'&'-led separators that carry no match of their own and do not end in
"ClientIp=".  Every occurrence's value is replaced by H; the separators and
the tail are kept.  Every text on which the regex matches decomposes this
way (the conditions on the separators and tail hold of the maximal
match-free gaps by construction), so no matching text is out of scope. -/
theorem reSub_chain_all (H : List Char) (parts : List (List Char × List Char))
    (vLast t : List Char)
    (hparts : ∀ vm ∈ parts, vm.1 ≠ [] ∧ (∀ c ∈ vm.1, ¬ c = '&') ∧
      hasMatch vm.2 = false ∧ ¬ cIpPat <:+ vm.2 ∧ vm.2.head? = some '&')
    (hvLast : vLast ≠ []) (hvAmp : ∀ c ∈ vLast, ¬ c = '&')
    (ht : hasMatch t = false) (htAmp : t = [] ∨ t.head? = some '&') :
    reSub H (parts.foldr (fun vm acc => cIpPat ++ (vm.1 ++ (vm.2 ++ acc)))
        (cIpPat ++ (vLast ++ t)))
      = parts.foldr (fun vm acc => cIpPat ++ (H ++ (vm.2 ++ acc)))
          (cIpPat ++ (H ++ t)) := by
  induction parts with
  | nil =>
    simp only [List.foldr_nil]
    have htAmp' : t = [] ∨ ∃ t', t = '&' :: t' := by
      rcases htAmp with h | h
      · exact Or.inl h
      · exact Or.inr (amp_shape_of_head t h)
    rw [reSub_step H vLast t hvLast hvAmp htAmp',
      reSub_id_of_hasMatch_false H t ht, List.append_assoc]
  | cons vm rest ih =>
    obtain ⟨hv, hvA, hmM, hmS, hmH⟩ := hparts vm (List.mem_cons_self _ _)
    obtain ⟨m', hm⟩ := amp_shape_of_head vm.2 hmH
    have ihrest := ih (fun x hx => hparts x (List.mem_cons_of_mem _ hx))
    simp only [List.foldr_cons]
    have hbshape : vm.2 ++ rest.foldr (fun vm acc => cIpPat ++ (vm.1 ++ (vm.2 ++ acc)))
          (cIpPat ++ (vLast ++ t))
        = '&' :: (m' ++ rest.foldr (fun vm acc => cIpPat ++ (vm.1 ++ (vm.2 ++ acc)))
            (cIpPat ++ (vLast ++ t))) := by
      rw [hm, List.cons_append]
    rw [reSub_step H vm.1 _ hv hvA (Or.inr ⟨_, hbshape⟩)]
    have hpatled : ∃ x, rest.foldr (fun vm acc => cIpPat ++ (vm.1 ++ (vm.2 ++ acc)))
        (cIpPat ++ (vLast ++ t)) = cIpPat ++ x := by
      cases rest with
      | nil => exact ⟨vLast ++ t, by simp only [List.foldr_nil]⟩
      | cons vm2 rest2 =>
        exact ⟨vm2.1 ++ (vm2.2 ++
            rest2.foldr (fun vm acc => cIpPat ++ (vm.1 ++ (vm.2 ++ acc)))
              (cIpPat ++ (vLast ++ t))),
          by simp only [List.foldr_cons]⟩
    rw [passthrough_clean_before_pat H vm.2 _ hmM hmS hpatled, ihrest,
      List.append_assoc]

/-! ## Claims about replace_client_ip -/

/-- Claim C2, counterexample: the claim says the rewrite replaces the value
of the query parameter ClientIp including an EMPTY value and alters no
other query parameter.  On the input below the code instead rewrites the
value of the different parameter XClientIp (the regex matches the substring
"ClientIp=1" inside it) and leaves the empty-valued ClientIp parameter
untouched, so the output differs from the one the claim requires. -/
theorem C2_counterexample :
    replace_client_ip "https://e.com/p?XClientIp=1&ClientIp=" "185.218.1.220"
      = "https://e.com/p?XClientIp=185.218.1.220&ClientIp=" ∧
    ("https://e.com/p?XClientIp=185.218.1.220&ClientIp=" : String)
      ≠ "https://e.com/p?XClientIp=1&ClientIp=185.218.1.220" := by
  exact ⟨rfl, by decide⟩

/-- Claim C2 as amended: for a URL a ++ "ClientIp=" ++ v ++ b where the
value v is nonempty and '&'-free, b is empty or starts at the delimiting
'&', and neither a nor b contains the substring "ClientIp=", the rewrite
replaces exactly v with the endpoint host and keeps a and b unchanged.  (A
ClientIp occurrence with an empty value is not replaced — see the
counterexample and C9 — and an occurrence inside a longer parameter name is
replaced like any other, which is why a and b must be "ClientIp="-free.) -/
theorem C2_amended_rewrite (a v b H : String)
    (ha : ¬ cIpPat <:+: a.data) (hv : v.data ≠ [])
    (hvAmp : ∀ c ∈ v.data, ¬ c = '&')
    (hb : b.data = [] ∨ b.data.head? = some '&')
    (hbNo : ¬ cIpPat <:+: b.data) :
    replace_client_ip (a ++ "ClientIp=" ++ v ++ b) H
      = a ++ "ClientIp=" ++ H ++ b := by
  have hb' : b.data = [] ∨ ∃ b', b.data = '&' :: b' := by
    rcases hb with h | h
    · exact Or.inl h
    · exact Or.inr (amp_shape_of_head _ h)
  apply String.ext
  have e1 : (a ++ "ClientIp=" ++ v ++ b).data
      = a.data ++ (cIpPat ++ (v.data ++ b.data)) := by
    simp [String.data_append, cIpPat, List.append_assoc]
  show reSub H.data (a ++ "ClientIp=" ++ v ++ b).data = (a ++ "ClientIp=" ++ H ++ b).data
  rw [e1, passthrough_before_pat H.data a.data _ ha,
    reSub_step H.data v.data b.data hv hvAmp hb',
    reSub_id_of_no_occ H.data b.data hbNo]
  simp [String.data_append, cIpPat, List.append_assoc]

/-- Claim C2, witness for the amended theorem at a concrete Namecheap-style
URL: the ClientIp value 0.0.0.0 becomes 9.9.9.9 and nothing else changes. -/
theorem C2_amended_witness :
    (¬ cIpPat <:+: ("https://api.namecheap.com/xml.response?Command=foo&" : String).data) ∧
    ("0.0.0.0" : String).data ≠ [] ∧
    (∀ c ∈ ("0.0.0.0" : String).data, ¬ c = '&') ∧
    (("&UserName=u" : String).data = [] ∨
      ("&UserName=u" : String).data.head? = some '&') ∧
    (¬ cIpPat <:+: ("&UserName=u" : String).data) ∧
    replace_client_ip
        ("https://api.namecheap.com/xml.response?Command=foo&" ++ "ClientIp=" ++
          "0.0.0.0" ++ "&UserName=u") "9.9.9.9"
      = "https://api.namecheap.com/xml.response?Command=foo&" ++ "ClientIp=" ++
          "9.9.9.9" ++ "&UserName=u" :=
  ⟨by decide, by decide, by decide, by decide, by decide,
    C2_amended_rewrite _ _ _ _ (by decide) (by decide) (by decide) (by decide) (by decide)⟩

/-- Claim C8: for every URL u and every endpoint host (the ip of a
configured proxy in PROXIES), the ClientIp rewrite is idempotent: applying
it again with the same host changes nothing.  (The proof goes through the
general fact that the rewrite is idempotent for any replacement free of
'&', which every configured ip is.) -/
theorem C8_rewrite_idempotent (u : String) (p : Proxy) (hp : p ∈ PROXIES) :
    replace_client_ip (replace_client_ip u p.ip) p.ip = replace_client_ip u p.ip := by
  have hamp : ∀ c ∈ p.ip.data, ¬ c = '&' := by
    simp only [PROXIES, List.mem_cons, List.not_mem_nil, or_false] at hp
    rcases hp with rfl | rfl | rfl <;> decide
  apply String.ext
  exact reSub_idem p.ip.data hamp u.data

/-- Claim C8, witness at the first configured proxy and a concrete URL. -/
theorem C8_witness :
    (⟨"185.218.1.220", 4319, "user308440", "5k4s12"⟩ : Proxy) ∈ PROXIES ∧
    replace_client_ip
        (replace_client_ip
          "https://api.namecheap.com/xml.response?Command=foo&ClientIp=0.0.0.0"
          (⟨"185.218.1.220", 4319, "user308440", "5k4s12"⟩ : Proxy).ip)
        (⟨"185.218.1.220", 4319, "user308440", "5k4s12"⟩ : Proxy).ip
      = replace_client_ip
          "https://api.namecheap.com/xml.response?Command=foo&ClientIp=0.0.0.0"
          (⟨"185.218.1.220", 4319, "user308440", "5k4s12"⟩ : Proxy).ip :=
  ⟨by decide, C8_rewrite_idempotent _ _ (by decide)⟩

/-- Claim C9, counterexample: the claim says a URL in which the ClientIp
query parameter is absent passes through unchanged.  In the URL below the
only query parameter is MyClientIp — the parameter ClientIp is absent — yet
the code rewrites it, because the regex also matches "ClientIp=7" inside
the longer parameter name. -/
theorem C9_counterexample :
    "ClientIp" ∉ specQueryParamNames "https://e.com/p?MyClientIp=7" ∧
    replace_client_ip "https://e.com/p?MyClientIp=7" "185.218.1.220"
      ≠ "https://e.com/p?MyClientIp=7" := by
  exact ⟨by decide, by decide⟩

/-- Claim C9 as amended: a URL with no occurrence of "ClientIp=" followed
by a non-'&' character anywhere (in particular one not containing
"ClientIp" at all, or containing it only with an empty value) passes
through the rewrite unchanged, for every endpoint host — no parameter is
inserted and nothing is modified.  A URL can lack the ClientIp parameter
and still be rewritten when a longer parameter name ends in "ClientIp". -/
theorem C9_amended_absent_unchanged (u H : String) (h : hasMatch u.data = false) :
    replace_client_ip u H = u := by
  apply String.ext
  exact reSub_id_of_hasMatch_false H.data u.data h

/-- Claim C9, witness: a URL without the parameter (and with an
empty-valued ClientIp, which the regex does not match) is unchanged. -/
theorem C9_witness :
    hasMatch ("https://e.com/p?x=1&ClientIp=" : String).data = false ∧
    replace_client_ip "https://e.com/p?x=1&ClientIp=" "185.218.1.220"
      = "https://e.com/p?x=1&ClientIp=" :=
  ⟨by decide, C9_amended_absent_unchanged _ _ (by decide)⟩

/-- Claim C10: the substitution is global.  Every URL string on which the
regex ClientIp=[^&]+ matches more than once decomposes as: a head with no
match inside, the matched occurrences "ClientIp=" ++ v — each value v
nonempty and '&'-free, since a greedy match runs to the next '&' or to the
end of the string (possibly swallowing further "ClientIp=" text) — '&'-led
separators with no match of their own, and a final tail that is empty (an
occurrence at end-of-string) or '&'-led with no match; head and separators
do not end in "ClientIp=" (otherwise the leftmost match would start there
and the decomposition would be a different one), but may well contain
empty-valued "ClientIp=" occurrences, which are not matches.  On every
such URL the rewrite replaces every occurrence's value with the given
host — not only the first, including occurrences where "ClientIp=" is a
suffix of a longer parameter name or lies outside the query string — and
keeps everything else unchanged. -/
theorem C10_global_substitution (H : String) (a : List Char)
    (parts : List (List Char × List Char)) (vLast t : List Char)
    (ha : hasMatch a = false) (haSuf : ¬ cIpPat <:+ a)
    (hparts : ∀ vm ∈ parts, vm.1 ≠ [] ∧ (∀ c ∈ vm.1, ¬ c = '&') ∧
      hasMatch vm.2 = false ∧ ¬ cIpPat <:+ vm.2 ∧ vm.2.head? = some '&')
    (hvLast : vLast ≠ []) (hvAmp : ∀ c ∈ vLast, ¬ c = '&')
    (ht : hasMatch t = false) (htAmp : t = [] ∨ t.head? = some '&') :
    replace_client_ip
        ⟨a ++ parts.foldr (fun vm acc => cIpPat ++ (vm.1 ++ (vm.2 ++ acc)))
          (cIpPat ++ (vLast ++ t))⟩ H
      = ⟨a ++ parts.foldr (fun vm acc => cIpPat ++ (H.data ++ (vm.2 ++ acc)))
          (cIpPat ++ (H.data ++ t))⟩ := by
  apply String.ext
  show reSub H.data (a ++ parts.foldr (fun vm acc => cIpPat ++ (vm.1 ++ (vm.2 ++ acc)))
      (cIpPat ++ (vLast ++ t)))
    = a ++ parts.foldr (fun vm acc => cIpPat ++ (H.data ++ (vm.2 ++ acc)))
        (cIpPat ++ (H.data ++ t))
  have hpatled : ∃ x, parts.foldr (fun vm acc => cIpPat ++ (vm.1 ++ (vm.2 ++ acc)))
      (cIpPat ++ (vLast ++ t)) = cIpPat ++ x := by
    cases parts with
    | nil => exact ⟨vLast ++ t, by simp only [List.foldr_nil]⟩
    | cons vm2 rest2 =>
      exact ⟨vm2.1 ++ (vm2.2 ++
          rest2.foldr (fun vm acc => cIpPat ++ (vm.1 ++ (vm.2 ++ acc)))
            (cIpPat ++ (vLast ++ t))),
        by simp only [List.foldr_cons]⟩
  rw [passthrough_clean_before_pat H.data a _ ha haSuf hpatled,
    reSub_chain_all H.data parts vLast t hparts hvLast hvAmp ht htAmp]

/-- Claim C10, witness at the canonical URL shape
https://api.namecheap.com/xml.response?ClientIp=a&ClientIp=&Command=foo&ClientIp=b:
three "ClientIp=" occurrences, of which two are matches — the separator
carries an empty-valued occurrence, which is not a match, and the last
match runs to the end of the string.  Both matched values are replaced and
the empty-valued occurrence is kept. -/
theorem C10_witness :
    replace_client_ip
        ⟨("https://api.namecheap.com/xml.response?" : String).data ++
          ([(("a" : String).data, ("&ClientIp=&Command=foo&" : String).data)].foldr
            (fun vm acc => cIpPat ++ (vm.1 ++ (vm.2 ++ acc)))
            (cIpPat ++ (("b" : String).data ++ [])))⟩ "9.9.9.9"
      = ⟨("https://api.namecheap.com/xml.response?" : String).data ++
          ([(("a" : String).data, ("&ClientIp=&Command=foo&" : String).data)].foldr
            (fun vm acc => cIpPat ++ (("9.9.9.9" : String).data ++ (vm.2 ++ acc)))
            (cIpPat ++ (("9.9.9.9" : String).data ++ [])))⟩ :=
  C10_global_substitution "9.9.9.9" _ _ _ _ (by decide) (by decide)
    (by
      intro vm hvm
      simp only [List.mem_cons, List.not_mem_nil, or_false] at hvm
      subst hvm
      exact ⟨by decide, by decide, by decide, by decide, by decide⟩)
    (by decide) (by decide) (by decide) (Or.inl rfl)

/-! ## Claims about the request handler -/

/-- Claim C5: for every POST request with valid credentials whose body,
read as text and stripped, does not start with "https://" (the empty body
included), do_POST answers 400 with body "Invalid URL" and the attempt
trace is empty — no proxy attempt is made. -/
theorem C5_invalid_url_400 (oracle : FetchOracle) (req : Request) (target : String)
    (hauth : check_auth req.authorization = Except.ok true)
    (hread : readTarget req = Except.ok target)
    (hpre : pyStartsWith target "https://" = false) :
    do_POST oracle req = Except.ok ([], ⟨400, [], "Invalid URL"⟩) := by
  simp [do_POST, hauth, hread, hpre]

/-- Claim C5, witness: valid credentials and an empty body give 400 with no
proxy attempt. -/
theorem C5_witness :
    check_auth (some "Basic Z3dfdXNlcjpnd19zZWNyZXRfcGFzcw==") = Except.ok true ∧
    readTarget ⟨some "Basic Z3dfdXNlcjpnd19zZWNyZXRfcGFzcw==", none, []⟩ = Except.ok "" ∧
    pyStartsWith "" "https://" = false ∧
    do_POST (fun _ _ => FetchOutcome.err "refused")
        ⟨some "Basic Z3dfdXNlcjpnd19zZWNyZXRfcGFzcw==", none, []⟩
      = Except.ok ([], ⟨400, [], "Invalid URL"⟩) :=
  ⟨rfl, rfl, rfl, C5_invalid_url_400 _ _ "" rfl rfl rfl⟩

/-- Claim C6, counterexample: handling does not always resolve to an HTTP
response.  A single malformed request — valid credentials but a non-numeric
Content-Length header — makes int() raise ValueError, which propagates out
of do_POST: no response at all is produced, rather than the 5xx the claim
requires. -/
theorem C6_counterexample :
    do_POST (fun _ _ => FetchOutcome.err "refused")
        ⟨some "Basic Z3dfdXNlcjpnd19zZWNyZXRfcGFzcw==", some "abc", []⟩
      = Except.error "invalid literal for int() with base 10" := rfl

/-- Claim C6 as amended: whenever the header decoding (check_auth) and the
body pipeline (Content-Length parsing and utf-8 decoding) do not raise,
handling always resolves to an HTTP response, whatever the network does —
in particular every upstream fetch failure is caught inside
fetch_via_proxy and never raises.  But a decoding fault (bad base64 or
utf-8 in the Authorization header, non-numeric Content-Length, non-utf-8
body) propagates out of the handler with no HTTP response sent; only the
serving loop around it keeps the process alive. -/
theorem C6_amended_resolves (oracle : FetchOracle) (req : Request) (b : Bool)
    (target : String)
    (hauth : check_auth req.authorization = Except.ok b)
    (hread : readTarget req = Except.ok target) :
    ∃ trace resp, do_POST oracle req = Except.ok (trace, resp) := by
  simp only [do_POST, hauth, hread]
  cases b with
  | false => exact ⟨[], ⟨401, [], "Unauthorized"⟩, by simp⟩
  | true =>
    cases hp : pyStartsWith target "https://" with
    | false => exact ⟨[], ⟨400, [], "Invalid URL"⟩, by simp [hp]⟩
    | true =>
      rcases htry : tryProxies oracle target PROXIES with ⟨trace, res⟩
      cases res with
      | none => exact ⟨trace, ⟨502, [], "all_proxies_failed"⟩, by simp [hp, htry]⟩
      | some pr =>
        obtain ⟨pbody, pip⟩ := pr
        exact ⟨trace,
          ⟨200, [("Content-Type", "text/xml"), ("X-Proxy-IP", pip)], pbody⟩,
          by simp [hp, htry]⟩

/-- Claim C6, witness for the amended theorem: with both decodings
succeeding, a response exists even when every fetch fails. -/
theorem C6_witness :
    check_auth (some "Basic Z3dfdXNlcjpnd19zZWNyZXRfcGFzcw==") = Except.ok true ∧
    readTarget ⟨some "Basic Z3dfdXNlcjpnd19zZWNyZXRfcGFzcw==", some "5",
        "https".data.map Char.toNat⟩ = Except.ok "https" ∧
    ∃ trace resp,
      do_POST (fun _ _ => FetchOutcome.err "refused")
          ⟨some "Basic Z3dfdXNlcjpnd19zZWNyZXRfcGFzcw==", some "5",
            "https".data.map Char.toNat⟩
        = Except.ok (trace, resp) :=
  ⟨rfl, rfl, C6_amended_resolves _ _ true "https" rfl rfl⟩

/-- Claim C4: at the failing input — a POST whose Authorization header is
"Basic A", whose base64 payload has one data character and therefore makes
base64.b64decode raise binascii.Error — do_POST propagates the exception
instead of answering 401, for every request body, Content-Length and
network behaviour.  (The 401 branches for a missing header, a non-Basic
header and a mismatching decoded credential do hold; the decode-failure
branch of the claim is the one the code breaks.) -/
theorem C4_decode_fault_raises (oracle : FetchOracle) (cl : Option String)
    (body : List Nat) :
    do_POST oracle ⟨some "Basic A", cl, body⟩
      = Except.error "Invalid base64-encoded string" := by
  have h : check_auth (some "Basic A")
      = Except.error "Invalid base64-encoded string" := rfl
  simp [do_POST, h]

/-- Claim C7: a GET request — with or without an Authorization header — is
answered 501 Unsupported method by the serving machinery, because the
Handler defines only do_POST; it is not rejected with the 401 the claim
(and the script's own health-check comment) expects. -/
theorem C7_non_post_501 (oracle : FetchOracle) (req : Request) :
    handle_request oracle "GET" req
      = Except.ok ([], ⟨501, [], "Unsupported method"⟩) ∧
    (501 : Nat) ≠ 401 := by
  refine ⟨?_, by decide⟩
  simp [handle_request]

/-- Claim C3: for every authenticated request with an https:// body, if the
fetch attempt of every configured endpoint fails, do_POST answers exactly
502 with body "all_proxies_failed" (no partial or success body), after a
trace of one failed attempt per configured proxy, in list order. -/
theorem C3_all_fail_502 (oracle : FetchOracle) (req : Request) (target : String)
    (hauth : check_auth req.authorization = Except.ok true)
    (hread : readTarget req = Except.ok target)
    (hpre : pyStartsWith target "https://" = true)
    (hfail : ∀ (j : Nat) (p : Proxy), PROXIES.get? j = some p →
      ∃ e, oracle p (replace_client_ip target p.ip) = FetchOutcome.err e) :
    ∃ e0 e1 e2, do_POST oracle req = Except.ok
      ([("185.218.1.220", FetchOutcome.err e0), ("185.218.2.100", FetchOutcome.err e1),
        ("172.252.57.50", FetchOutcome.err e2)],
       ⟨502, [], "all_proxies_failed"⟩) := by
  obtain ⟨e0, h0⟩ := hfail 0 ⟨"185.218.1.220", 4319, "user308440", "5k4s12"⟩ rfl
  obtain ⟨e1, h1⟩ := hfail 1 ⟨"185.218.2.100", 4319, "user308441", "abc123"⟩ rfl
  obtain ⟨e2, h2⟩ := hfail 2 ⟨"172.252.57.50", 4319, "user308442", "xyz789"⟩ rfl
  dsimp only at h0 h1 h2
  refine ⟨e0, e1, e2, ?_⟩
  simp [do_POST, hauth, hread, hpre, PROXIES, tryProxies, fetch_via_proxy, h0, h1, h2]

/-- Claim C3, witness: a network on which every fetch fails yields the 502
response with the three-entry failure trace. -/
theorem C3_witness :
    check_auth (some "Basic Z3dfdXNlcjpnd19zZWNyZXRfcGFzcw==") = Except.ok true ∧
    readTarget ⟨some "Basic Z3dfdXNlcjpnd19zZWNyZXRfcGFzcw==", some "9",
        "https://x".data.map Char.toNat⟩ = Except.ok "https://x" ∧
    pyStartsWith "https://x" "https://" = true ∧
    ∃ e0 e1 e2,
      do_POST (fun _ _ => FetchOutcome.err "timed out")
          ⟨some "Basic Z3dfdXNlcjpnd19zZWNyZXRfcGFzcw==", some "9",
            "https://x".data.map Char.toNat⟩
        = Except.ok
          ([("185.218.1.220", FetchOutcome.err e0),
            ("185.218.2.100", FetchOutcome.err e1),
            ("172.252.57.50", FetchOutcome.err e2)],
           ⟨502, [], "all_proxies_failed"⟩) :=
  ⟨rfl, rfl, rfl,
    C3_all_fail_502 _ _ "https://x" rfl rfl rfl
      (fun _ _ _ => ⟨"timed out", rfl⟩)⟩

/-- Claim C1: for every authenticated request with an https:// body, the
handler tries the configured endpoints in their fixed order and stops at
the first success.  With 0-indexed i (the claim's endpoint i+1): if every
attempt before position i fails and position i succeeds with some body,
then do_POST answers 200 with the X-Proxy-IP header equal to endpoint i's
host and the upstream body; the attempt trace has exactly i+1 entries —
each earlier endpoint attempted and recorded as failed, in order, and entry
i recorded as the success. -/
theorem C1_first_success (oracle : FetchOracle) (req : Request) (target : String)
    (i : Nat) (body : String) (pi : Proxy)
    (hauth : check_auth req.authorization = Except.ok true)
    (hread : readTarget req = Except.ok target)
    (hpre : pyStartsWith target "https://" = true)
    (hi : PROXIES.get? i = some pi)
    (hfail : ∀ j, j < i → ∀ p, PROXIES.get? j = some p →
      ∃ e, oracle p (replace_client_ip target p.ip) = FetchOutcome.err e)
    (hsucc : oracle pi (replace_client_ip target pi.ip) = FetchOutcome.ok body) :
    ∃ trace, do_POST oracle req = Except.ok (trace,
        ⟨200, [("Content-Type", "text/xml"), ("X-Proxy-IP", pi.ip)], body⟩) ∧
      trace.length = i + 1 ∧
      (∀ j, j < i → ∃ p e, PROXIES.get? j = some p ∧
        trace.get? j = some (p.ip, FetchOutcome.err e)) ∧
      trace.get? i = some (pi.ip, FetchOutcome.ok body) := by
  have hlen : i < 3 := by
    by_contra hge
    rw [List.get?_eq_none.mpr (by simp [PROXIES]; omega)] at hi
    exact Option.noConfusion hi
  interval_cases i
  · have hpi : pi = ⟨"185.218.1.220", 4319, "user308440", "5k4s12"⟩ := by
      simpa [PROXIES] using hi.symm
    subst hpi
    dsimp only at hsucc
    refine ⟨[("185.218.1.220", FetchOutcome.ok body)], ?_, rfl, ?_, rfl⟩
    · simp [do_POST, hauth, hread, hpre, PROXIES, tryProxies, fetch_via_proxy, hsucc]
    · intro j hj
      omega
  · obtain ⟨e0, h0⟩ := hfail 0 (by omega) ⟨"185.218.1.220", 4319, "user308440", "5k4s12"⟩ rfl
    have hpi : pi = ⟨"185.218.2.100", 4319, "user308441", "abc123"⟩ := by
      simpa [PROXIES] using hi.symm
    subst hpi
    dsimp only at hsucc h0
    refine ⟨[("185.218.1.220", FetchOutcome.err e0), ("185.218.2.100", FetchOutcome.ok body)],
      ?_, rfl, ?_, rfl⟩
    · simp [do_POST, hauth, hread, hpre, PROXIES, tryProxies, fetch_via_proxy, hsucc, h0]
    · intro j hj
      interval_cases j
      exact ⟨⟨"185.218.1.220", 4319, "user308440", "5k4s12"⟩, e0, rfl, rfl⟩
  · obtain ⟨e0, h0⟩ := hfail 0 (by omega) ⟨"185.218.1.220", 4319, "user308440", "5k4s12"⟩ rfl
    obtain ⟨e1, h1⟩ := hfail 1 (by omega) ⟨"185.218.2.100", 4319, "user308441", "abc123"⟩ rfl
    have hpi : pi = ⟨"172.252.57.50", 4319, "user308442", "xyz789"⟩ := by
      simpa [PROXIES] using hi.symm
    subst hpi
    dsimp only at hsucc h0 h1
    refine ⟨[("185.218.1.220", FetchOutcome.err e0), ("185.218.2.100", FetchOutcome.err e1),
      ("172.252.57.50", FetchOutcome.ok body)], ?_, rfl, ?_, rfl⟩
    · simp [do_POST, hauth, hread, hpre, PROXIES, tryProxies, fetch_via_proxy, hsucc, h0, h1]
    · intro j hj
      interval_cases j
      · exact ⟨⟨"185.218.1.220", 4319, "user308440", "5k4s12"⟩, e0, rfl, rfl⟩
      · exact ⟨⟨"185.218.2.100", 4319, "user308441", "abc123"⟩, e1, rfl, rfl⟩

/-- Claim C1, witness: on a network where the first proxy refuses and the
second succeeds, the relay answers 200 via the second proxy with
X-Proxy-IP 185.218.2.100 after recording the first failure. -/
theorem C1_witness :
    check_auth (some "Basic Z3dfdXNlcjpnd19zZWNyZXRfcGFzcw==") = Except.ok true ∧
    readTarget ⟨some "Basic Z3dfdXNlcjpnd19zZWNyZXRfcGFzcw==", some "9",
        "https://x".data.map Char.toNat⟩ = Except.ok "https://x" ∧
    pyStartsWith "https://x" "https://" = true ∧
    PROXIES.get? 1 = some ⟨"185.218.2.100", 4319, "user308441", "abc123"⟩ ∧
    ∃ trace,
      do_POST
          (fun p _ => if p.ip == "185.218.2.100" then FetchOutcome.ok "<xml/>"
            else FetchOutcome.err "refused")
          ⟨some "Basic Z3dfdXNlcjpnd19zZWNyZXRfcGFzcw==", some "9",
            "https://x".data.map Char.toNat⟩
        = Except.ok (trace,
          ⟨200, [("Content-Type", "text/xml"), ("X-Proxy-IP", "185.218.2.100")], "<xml/>"⟩) ∧
      trace.length = 1 + 1 ∧
      (∀ j, j < 1 → ∃ p e, PROXIES.get? j = some p ∧
        trace.get? j = some (p.ip, FetchOutcome.err e)) ∧
      trace.get? 1 = some ("185.218.2.100", FetchOutcome.ok "<xml/>") :=
  ⟨rfl, rfl, rfl, rfl,
    C1_first_success _ _ "https://x" 1 "<xml/>" ⟨"185.218.2.100", 4319, "user308441", "abc123"⟩
      rfl rfl rfl rfl
      (fun j hj p hp => ⟨"refused", by
        interval_cases j
        simp only [PROXIES] at hp
        rcases hp with ⟨⟩
        rfl⟩)
      rfl⟩

end Gateway
